import Mathlib

/-! Page Enhancer (`js/main.js`): a shallow embedding and its verified properties.

The script wires independent behaviours to a page: a navigation menu, animated
statistic counters, a simulated contact form and a sponsorship modal.  Each
handler of the script is embedded as a pure function on the part of the page
state it reads and writes.  Texts are `String`s.  The Numbers of the script are
IEEE doubles; the ones it computes hold integers, and they are embedded as the
integers they hold, every operation rounding its exact result to the nearest
double as the language does.
-/

namespace PageEnhancer

/-! ## Numbers of the host language -/

/-- A non-negative Number that holds an integer, or `Infinity`. -/
inductive Magnitude where
  | fin (n : Nat)
  | inf
  deriving DecidableEq, Repr

/-- A Number as `parseInt` returns it: `NaN`, or a sign and a magnitude. -/
inductive Number where
  | nan
  | signed (negative : Bool) (m : Magnitude)
  deriving DecidableEq, Repr

/-- Position of the leading binary digit of `n` (0 for `n < 2`), by halving at
most `fuel` times. -/
def leadingBit : Nat → Nat → Nat
  | 0, _ => 0
  | fuel + 1, n => if n < 2 then 0 else leadingBit fuel (n / 2) + 1

/-- The Number nearest to the natural number `n`: `n` itself below `2^53`,
otherwise `n` rounded to 53 significant binary digits, a tie going to the even
significand, and `Infinity` from `2^1024 - 2^970` on. -/
def toNumber (n : Nat) : Magnitude :=
  if n < 2 ^ 53 then .fin n
  else
    let e := leadingBit n n - 52
    let q := n / 2 ^ e
    let r := n % 2 ^ e
    let q1 := if decide (2 ^ e < 2 * r) || (2 * r == 2 ^ e && q % 2 == 1) then q + 1 else q
    if decide (e < 971) || (e == 971 && decide (q1 < 2 ^ 53)) then .fin (q1 * 2 ^ e) else .inf

/-- The sum `a + b` of two Numbers: the exact sum, rounded. -/
def Magnitude.add : Magnitude → Magnitude → Magnitude
  | .fin a, .fin b => toNumber (a + b)
  | _, _ => .inf

/-- The comparison `a < b`. -/
def Magnitude.lt : Magnitude → Magnitude → Bool
  | .fin a, .fin b => decide (a < b)
  | .fin _, .inf => true
  | .inf, _ => false

/-- The value of `Math.round(t / 80)` for a Number holding the natural `t`: the
quotient is rounded to the nearest Number (53 significant binary digits, a tie
going to the even significand), and that Number to the nearest integer, a half
going up. -/
def roundQuotient (t : Nat) : Nat :=
  if t < 5 * 2 ^ 57 then
    -- the quotient is below 2^53: its significand `m` stands for `m / 2^s`
    let s := if 5 * 2 ^ 56 ≤ t * 2 ^ (58 - leadingBit t t) then 58 - leadingBit t t
             else 59 - leadingBit t t
    let q := t * 2 ^ s / 80
    let r := t * 2 ^ s % 80
    let m := if decide (40 < r) || (r == 40 && q % 2 == 1) then q + 1 else q
    (2 * m + 2 ^ s) / 2 ^ (s + 1)
  else
    -- the quotient is at least 2^53: its significand `m` stands for `m * 2^e`
    let e := if t < 5 * 2 ^ 57 * 2 ^ (leadingBit t t - 59) then leadingBit t t - 59
             else leadingBit t t - 58
    let q := t / (80 * 2 ^ e)
    let r := t % (80 * 2 ^ e)
    let m := if decide (40 * 2 ^ e < r) || (r == 40 * 2 ^ e && q % 2 == 1) then q + 1 else q
    m * 2 ^ e

/-! ## Text helpers of the host language -/

/-- The regular-expression class `\d`: the ASCII digits. -/
def isDigit (c : Char) : Bool := decide ('0'.toNat ≤ c.toNat) && decide (c.toNat ≤ '9'.toNat)

/-- Numeric value of a digit character. -/
def digitVal (c : Char) : Nat := c.toNat - '0'.toNat

/-- White space and line terminators of the language, the characters that
`String.prototype.trim` and `parseInt` skip. -/
def isWhiteSpace (c : Char) : Bool :=
  let n := c.toNat
  n == 0x09 || n == 0x0A || n == 0x0B || n == 0x0C || n == 0x0D || n == 0x20 ||
  n == 0xA0 || n == 0x1680 || (decide (0x2000 ≤ n) && decide (n ≤ 0x200A)) ||
  n == 0x2028 || n == 0x2029 || n == 0x202F || n == 0x205F || n == 0x3000 || n == 0xFEFF

/-- Remove the white space at both ends, as `String.prototype.trim`. -/
def trim (s : List Char) : List Char :=
  ((s.dropWhile isWhiteSpace).reverse.dropWhile isWhiteSpace).reverse

/-- Value of a run of decimal digits, most significant first. -/
def digitsValue (ds : List Char) : Nat := ds.foldl (fun n c => 10 * n + digitVal c) 0

/-- The call `parseInt(s, 10)`: skip leading white space, read an optional sign,
then the longest run of decimal digits; without a digit the result is `NaN`,
otherwise the Number nearest to the integer read, with the sign.  (For a run of
more than 20 significant digits the language lets an implementation round the
run with its digits after the 20th replaced by zeros instead.) -/
def parseInt (s : List Char) : Number :=
  let s1 := s.dropWhile isWhiteSpace
  let negative := s1.head? == some '-'
  let s2 := if s1.head? == some '-' || s1.head? == some '+' then s1.tail else s1
  let z := s2.takeWhile isDigit
  if z.isEmpty then .nan
  else .signed negative (toNumber (digitsValue z))

/-- The call `s.match(/\d+/)`: the leftmost longest run of digits, `none` when
the text has no digit. -/
def matchDigits (s : List Char) : Option (List Char) :=
  let rest := s.dropWhile (fun c => !isDigit c)
  if rest.isEmpty then none else some (rest.takeWhile isDigit)

/-- Insert a comma after every third digit of a reversed digit list. -/
def groupRev : List Char → List Char
  | a :: b :: c :: d :: rest => a :: b :: c :: ',' :: groupRev (d :: rest)
  | l => l

/-- The call `x.toLocaleString()` on a non-negative integral Number, in the
`en-US` locale: the decimal digits of the integer it holds, grouped by three
with commas; the infinity sign for `Infinity`. -/
def toLocaleString : Magnitude → String
  | .fin n => String.mk (groupRev (Nat.toDigits 10 n).reverse).reverse
  | .inf => "∞"

/-! ## Animated counters (source lines 103-144) -/

/-- Lines 121-124: the target parsed from a counter's text.  The run that line
123 matches carries no sign, so the reading is a magnitude; a missing match
gives `0`, and `NaN` is falsy at line 125 as `0` is. -/
def parseTarget (textContent : String) : Magnitude :=
  let raw := trim textContent.data
  let m := matchDigits (raw.filter (fun c => !(c == ',' || c == '+')))
  match m with
  | some run =>
    match parseInt run with
    | .signed _ target => target
    | .nan => .fin 0
  | none => .fin 0

/-- Line 128: `Math.max(1, Math.round(target / steps))` with `steps = 80`. -/
def increment (target : Magnitude) : Magnitude :=
  match target with
  | .fin t => .fin (max 1 (roundQuotient t))
  | .inf => .inf

/-- The closure that lines 126-130 create for one counter. -/
structure Animation where
  /-- the parsed `target` -/
  target : Magnitude
  /-- the fixed `increment` -/
  increment : Magnitude
  /-- the running `value` -/
  value : Magnitude
  /-- whether a `setTimeout(tick, 30)` is outstanding -/
  scheduled : Bool
  deriving DecidableEq, Repr

/-- One `.stat-box h3` element: its text, and its animation once started. -/
structure Counter where
  textContent : String
  animation : Option Animation
  deriving DecidableEq, Repr

/-- Lines 130-138, the body of `tick`. -/
def tick (c : Counter) : Counter :=
  match c.animation with
  | none => c
  | some a =>
    let value := a.value.add a.increment
    if value.lt a.target then
      { textContent := toLocaleString value,
        animation := some { a with value := value, scheduled := true } }
    else
      { textContent := toLocaleString a.target ++ "+",
        animation := some { a with value := value, scheduled := false } }

/-- Lines 121-139, the body of the `forEach` for one counter. -/
def startCounter (c : Counter) : Counter :=
  let target := parseTarget c.textContent
  if target = .fin 0 then c
  else
    tick { textContent := "0",
           animation := some { target := target, increment := increment target,
                               value := .fin 0, scheduled := false } }

/-- Whether a timer of the counter is outstanding. -/
def Counter.scheduled (c : Counter) : Bool :=
  match c.animation with
  | some a => a.scheduled
  | none => false

/-- The host fires the counter's timer: `tick` runs when one is outstanding. -/
def timerFires (c : Counter) : Counter :=
  if c.scheduled then tick c else c

/-- The counter after `k` further timer callbacks. -/
def runTimers : Nat → Counter → Counter
  | 0, c => c
  | k + 1, c => runTimers k (timerFires c)

/-- The counters and the page-wide latch `countersStarted`. -/
structure Stats where
  countersStarted : Bool
  counters : List Counter
  deriving DecidableEq, Repr

/-- Lines 110-114; `top` is `rect.top` of the element, `none` a missing element. -/
def isInViewport (top : Option Int) (innerHeight : Int) (offset : Int) : Bool :=
  match top with
  | none => false
  | some t => decide (t ≤ innerHeight - offset)

/-- Lines 116-141; `statsTop` is the top edge of the statistics section at the
time of the call (`none` when the page has no such section). -/
def startCounters (statsTop : Option Int) (innerHeight : Int) (s : Stats) : Stats :=
  if s.countersStarted then s
  else if !isInViewport statsTop innerHeight 200 then s
  else { countersStarted := true, counters := s.counters.map startCounter }

/-- The timer of the `i`-th counter fires. -/
def fireTimer : Nat → List Counter → List Counter
  | _, [] => []
  | 0, c :: cs => timerFires c :: cs
  | i + 1, c :: cs => c :: fireTimer i cs

/-- What the host can deliver to the counters feature. -/
inductive StatsEvent where
  | scroll (statsTop : Option Int) (innerHeight : Int)
  | timer (i : Nat)
  deriving Repr

/-- One callback turn of the counters feature. -/
def statsStep (e : StatsEvent) (s : Stats) : Stats :=
  match e with
  | .scroll top h => startCounters top h s
  | .timer i => { s with counters := fireTimer i s.counters }

/-- The state after a sequence of events. -/
def statsRun : List StatsEvent → Stats → Stats
  | [], s => s
  | e :: es, s => statsRun es (statsStep e s)

/-- Lines 107-108: the counters as the markup gives them, the latch unset.  The
call of `startCounters` after load (line 144) is the first `scroll` event of a
run. -/
def statsMarkup (texts : List String) : Stats :=
  { countersStarted := false,
    counters := texts.map (fun t => { textContent := t, animation := none }) }

/-- How many events of the sequence set the latch, that is, start the animations. -/
def startsIn : List StatsEvent → Stats → Nat
  | [], _ => 0
  | e :: es, s =>
    (if !s.countersStarted && (statsStep e s).countersStarted then 1 else 0)
      + startsIn es (statsStep e s)

/-! ## Navigation menu and sponsorship modal (source lines 21-56, 200-262, 274-286) -/

/-- The link list `navList`: whether its class list holds `open`. -/
structure NavList where
  hasOpen : Bool
  deriving DecidableEq, Repr

/-- The control `menuToggle`: its `aria-expanded` attribute, `none` when the
attribute is not set. -/
structure MenuToggle where
  ariaExpanded : Option String
  deriving DecidableEq, Repr

/-- The modal `#ameal-sponsor-modal`: whether its class list holds `hidden`, its
`aria-hidden` attribute, and the value of the `#mealCount` input. -/
structure Modal where
  hidden : Bool
  ariaHidden : String
  mealCount : String
  deriving DecidableEq, Repr

/-- A blocking alert of the confirm handler. -/
inductive Alert where
  /-- line 253: `alert('Enter a valid number of meals.')` -/
  | invalid
  /-- line 257: the acknowledgment, whose template holds the Number `val` -/
  | thanks (val : Number)
  deriving DecidableEq, Repr

/-- The text of an alert.  Among the counts it is given for those up to `2^53`,
which the language prints as the decimal digits of the integer, and for
`Infinity`; beyond `2^53` the digits that the host prints are not fixed by the
embedding and the text is `none`. -/
def Alert.text : Alert → Option String
  | .invalid => some "Enter a valid number of meals."
  | .thanks (.signed false (.fin n)) =>
    if n ≤ 2 ^ 53 then some ("Thank you! You sponsored " ++ toString n ++ " meal(s).") else none
  | .thanks (.signed false .inf) => some "Thank you! You sponsored Infinity meal(s)."
  | .thanks _ => none

/-- The part of the page that the menu, the modal and the key handler touch.
An element the page lacks is `none`.  `modalBound` tells whether lines 205-261
ran, that is, whether the script inserted the modal and bound its handlers.
`otherModals` are the other elements with class `meal-modal` that precede the
modal in document order, each with whether its class list holds `hidden`.
`alerts` are the blocking alerts raised so far, the newest first. -/
structure Page where
  navList : Option NavList
  menuToggle : Option MenuToggle
  modal : Modal
  modalBound : Bool
  otherModals : List Bool
  alerts : List Alert
  deriving DecidableEq, Repr

/-- The guard of line 30 (`navList` exists only inside a `.navbar`). -/
def Page.menuBound (p : Page) : Bool := p.menuToggle.isSome && p.navList.isSome

/-- Lines 206-218: the modal as it is created. -/
def newModal : Modal := { hidden := true, ariaHidden := "true", mealCount := "" }

/-- Page load.  Line 32 sets the attribute of the toggle when the menu feature
is bound; the class list of the link list is what the markup gives, no line of
the script writes it before the first event.  Line 204: when the markup holds
an element with the id of the modal (`existing`), lines 205-261 are skipped and
that element stays as it is, without handlers; otherwise the modal is inserted
at the end of the body, after every other element, and its handlers are bound. -/
def init (navList : Option NavList) (menuToggle : Option MenuToggle)
    (otherModals : List Bool) (existing : Option Modal) : Page :=
  let bound := menuToggle.isSome && navList.isSome
  { navList := navList,
    menuToggle := if bound then menuToggle.map (fun _ => { ariaExpanded := some "false" })
                  else menuToggle,
    modal := match existing with
             | some m => m
             | none => newModal,
    modalBound := existing.isNone,
    otherModals := otherModals,
    alerts := [] }

/-- The conversion `String(b)` of a boolean. -/
def boolString (b : Bool) : String := if b then "true" else "false"

/-- Lines 33-38: the click handler of the toggle. -/
def toggleHandler (p : Page) : Page :=
  if p.menuBound then
    { p with
      menuToggle := p.menuToggle.map (fun t =>
        let expanded := t.ariaExpanded == some "true"
        { ariaExpanded := some (boolString (!expanded)) }),
      navList := p.navList.map (fun l => { hasOpen := !l.hasOpen }) }
  else p

/-- Lines 43-44 and 52-53: the list loses `open`, the toggle gets
`aria-expanded="false"`. -/
def closeMenu (p : Page) : Page :=
  if p.menuBound then
    { p with
      navList := p.navList.map (fun _ => { hasOpen := false }),
      menuToggle := p.menuToggle.map (fun _ => { ariaExpanded := some "false" }) }
  else p

/-- Lines 223-226. -/
def openModal (m : Modal) : Modal := { m with hidden := false, ariaHidden := "false" }

/-- Lines 227-230. -/
def closeModal (m : Modal) : Modal := { m with hidden := true, ariaHidden := "true" }

/-- Line 252: the test `!val || val < 1`. -/
def rejected (val : Number) : Bool :=
  match val with
  | .nan => true
  | .signed true _ => true
  | .signed false (.fin n) => decide (n < 1)
  | .signed false .inf => false

/-- Lines 250-260: the click handler of `#confirmMeal`. -/
def confirmHandler (p : Page) : Page :=
  let val := parseInt p.modal.mealCount.data
  if rejected val then
    { p with alerts := .invalid :: p.alerts }
  else
    { p with
      alerts := .thanks val :: p.alerts,
      modal := { closeModal p.modal with mealCount := "" } }

/-- Line 283: the first of the elements that is without the class `hidden`
gets it; `none` when every one has it. -/
def hideFirst : List Bool → Option (List Bool)
  | [] => none
  | h :: rest =>
    if !h then some (true :: rest)
    else
      match hideFirst rest with
      | some rest1 => some (h :: rest1)
      | none => none

/-- Lines 277-286: the `keydown` handler for the key `Escape`.  The selector of
line 283 matches the elements with class `meal-modal` and the modal itself, and
`querySelector` returns the first in document order that is without `hidden`:
one of the other elements if there is one, else the modal. -/
def escapeHandler (p : Page) : Page :=
  let p1 := { p with
    navList := p.navList.map (fun _ => { hasOpen := false }),
    menuToggle := p.menuToggle.map (fun _ => { ariaExpanded := some "false" }) }
  match hideFirst p.otherModals with
  | some others => { p1 with otherModals := others }
  | none =>
    { p1 with modal := if !p.modal.hidden then { p.modal with hidden := true } else p.modal }

/-- Where a click lands with respect to the menu. -/
inductive NavPlace where
  /-- on the toggle (its handler stops the propagation) -/
  | toggle
  /-- on a link of the list -/
  | navLink
  /-- elsewhere inside the navbar -/
  | navbar
  /-- outside the navbar -/
  | outside
  deriving DecidableEq, Repr

/-- Where a click lands with respect to the modal and its openers. -/
inductive ModalPlace where
  /-- on a `.hero-btn`, `.cta-btn` or `.donate-btn` control of the markup -/
  | opener
  /-- on `.modal-close` -/
  | closeBtn
  /-- on `#modalCancel` -/
  | cancelBtn
  /-- on the modal element itself, outside its content -/
  | backdrop
  /-- on `#confirmMeal` -/
  | confirmBtn
  /-- anywhere else -/
  | elsewhere
  deriving DecidableEq, Repr

/-- The menu handlers that a click reaches (lines 33-55). -/
def navClick (place : NavPlace) (p : Page) : Page :=
  match place with
  | .toggle => toggleHandler p
  | .navLink => closeMenu p
  | .navbar => p
  | .outside => closeMenu p

/-- The modal handlers that a click reaches (lines 233-260); there are none
when the script did not insert the modal.  The control `#confirmMeal` has the
class `hero-btn` (line 213) and exists when line 233 collects the openers, so a
click on it runs the opener handler first and the confirm handler next. -/
def modalClick (place : ModalPlace) (p : Page) : Page :=
  if p.modalBound then
    match place with
    | .opener => { p with modal := openModal p.modal }
    | .closeBtn => { p with modal := closeModal p.modal }
    | .cancelBtn => { p with modal := closeModal p.modal }
    | .backdrop => { p with modal := closeModal p.modal }
    | .confirmBtn => confirmHandler { p with modal := openModal p.modal }
    | .elsewhere => p
  else p

/-- What the user can do to the menu and the modal. -/
inductive Event where
  | click (nav : NavPlace) (modal : ModalPlace)
  | typeMealCount (text : String)
  | escape
  deriving DecidableEq, Repr

/-- One callback turn. -/
def step (e : Event) (p : Page) : Page :=
  match e with
  | .click nav modal => modalClick modal (navClick nav p)
  | .typeMealCount text => { p with modal := { p.modal with mealCount := text } }
  | .escape => escapeHandler p

/-- The page after a sequence of events. -/
def run : List Event → Page → Page
  | [], p => p
  | e :: es, p => run es (step e p)

/-- The list has class `open` exactly when the toggle has `aria-expanded="true"`. -/
def menuAgrees (p : Page) : Prop :=
  ∃ l t, p.navList = some l ∧ p.menuToggle = some t ∧
    (l.hasOpen = true ↔ t.ariaExpanded = some "true")

/-- The modal has class `hidden` exactly when it has `aria-hidden="true"`. -/
def modalAgrees (m : Modal) : Prop := m.hidden = true ↔ m.ariaHidden = "true"

/-- The state that `openModal` establishes. -/
def Modal.isOpen (m : Modal) : Prop := m.hidden = false ∧ m.ariaHidden = "false"

/-- The state that `closeModal` establishes. -/
def Modal.isClosed (m : Modal) : Prop := m.hidden = true ∧ m.ariaHidden = "true"

/-! ## Contact form (source lines 146-176) -/

/-- A form control: its current value and the default that the markup gives. -/
structure Field where
  value : String
  defaultValue : String
  deriving DecidableEq, Repr

/-- The control `button[type="submit"]` of the form. -/
structure SubmitButton where
  disabled : Bool
  textContent : String
  deriving DecidableEq, Repr

/-- The contact form: its controls, its submit button if it has one, the inline
message area, and the number of outstanding 900 ms timeouts. -/
structure ContactForm where
  fields : List Field
  submitBtn : Option SubmitButton
  msgText : String
  msgColor : String
  timeouts : Nat
  deriving DecidableEq, Repr

/-- The call `contactForm.reset()`: every control returns to its default. -/
def resetFields (fields : List Field) : List Field :=
  fields.map (fun x => { x with value := x.defaultValue })

/-- Lines 155-175 up to the `setTimeout` call; `checkValidity` is the
constraint validation of the host. -/
def submitHandler (checkValidity : List Field → Bool) (f : ContactForm) : ContactForm :=
  let f1 := { f with msgText := "" }
  if !checkValidity f1.fields then
    { f1 with msgText := "Please fill all required fields.", msgColor := "#c0392b" }
  else
    { f1 with
      submitBtn := f1.submitBtn.map (fun _ => { disabled := true, textContent := "Sending..." }),
      timeouts := f1.timeouts + 1 }

/-- Lines 169-174: the callback that runs after the delay. -/
def submitTimeout (f : ContactForm) : ContactForm :=
  { fields := resetFields f.fields,
    submitBtn := f.submitBtn.map (fun _ => { disabled := false, textContent := "Send Message" }),
    msgText := "Thank you \u00e2\u20ac\u201d we received your message.",
    msgColor := "#2E7D32",
    timeouts := f.timeouts - 1 }

/-! ## Auxiliary definitions of the proofs -/

/-- The counter while its animation runs and shows `v`. -/
def running (t v : Magnitude) : Counter :=
  { textContent := toLocaleString v,
    animation := some { target := t, increment := increment t, value := v, scheduled := true } }

/-- The counter once its animation has ended with the accumulator at `v`. -/
def ended (t v : Magnitude) : Counter :=
  { textContent := toLocaleString t ++ "+",
    animation := some { target := t, increment := increment t, value := v, scheduled := false } }

/-- The counter parse as the specification words it: the commas are removed,
then one trailing "+", and the integer value of the first run of digits of what
remains is read. -/
def specTarget (text : String) : Nat :=
  let noSeparators := text.data.filter (fun c => !(c == ','))
  let noPlus := if noSeparators.getLast? == some '+' then noSeparators.dropLast else noSeparators
  digitsValue ((noPlus.dropWhile (fun c => !isDigit c)).takeWhile isDigit)

/-- The text of a counter without its commas and plus signs (line 123). -/
def stripped (text : String) : List Char :=
  text.data.filter (fun c => !(c == ',' || c == '+'))

/-- All characters of the list are digits. -/
def allDigits (l : List Char) : Prop := ∀ c ∈ l, isDigit c = true

/-! ## Numbers: rounding -/

theorem toNumber_small (n : Nat) (h : n < 2 ^ 53) : toNumber n = .fin n := by
  unfold toNumber
  rw [if_pos h]

theorem leadingBit_le (fuel : Nat) : ∀ n : Nat, 1 ≤ n → n ≤ fuel → 2 ^ leadingBit fuel n ≤ n := by
  induction fuel with
  | zero => intro n h1 h2; omega
  | succ fuel ih =>
    intro n h1 h2
    by_cases hn : n < 2
    · simp [leadingBit, hn]; omega
    · have h3 := ih (n / 2) (by omega) (by omega)
      simp only [leadingBit, hn, if_false, pow_succ]
      omega

/-- Rounding the sum `v + i` gives `Infinity` or a Number above `v`, when the
step `i` is not below the last binary place of the sum. -/
theorem toNumber_add_gt (v i w : Nat) (hi : 1 ≤ i) (hstep : v + i ≤ i * 2 ^ 52)
    (h : toNumber (v + i) = .fin w) : v < w := by
  by_cases hs : v + i < 2 ^ 53
  · rw [toNumber_small _ hs] at h
    have : v + i = w := Magnitude.fin.inj h
    omega
  · have hE : 2 ^ (leadingBit (v + i) (v + i) - 52) ≤ i := by
      by_cases hL : leadingBit (v + i) (v + i) ≤ 52
      · have : leadingBit (v + i) (v + i) - 52 = 0 := by omega
        rw [this]; simpa using hi
      · have h1 := leadingBit_le (v + i) (v + i) (by omega) (le_refl _)
        have h2 : 2 ^ leadingBit (v + i) (v + i)
            = 2 ^ (leadingBit (v + i) (v + i) - 52) * 2 ^ 52 := by
          rw [← pow_add]
          congr 1
          omega
        rw [h2] at h1
        have h3 : 2 ^ (leadingBit (v + i) (v + i) - 52) * 2 ^ 52 ≤ i * 2 ^ 52 :=
          le_trans h1 hstep
        exact Nat.le_of_mul_le_mul_right h3 (by positivity)
    have hEpos : 0 < 2 ^ (leadingBit (v + i) (v + i) - 52) := by positivity
    have hdm := Nat.div_add_mod (v + i) (2 ^ (leadingBit (v + i) (v + i) - 52))
    have hmod := Nat.mod_lt (v + i) hEpos
    have key : ∀ (q1 : Nat) (c : Bool),
        (v + i) / 2 ^ (leadingBit (v + i) (v + i) - 52) ≤ q1 →
        (if c = true then Magnitude.fin (q1 * 2 ^ (leadingBit (v + i) (v + i) - 52))
          else Magnitude.inf) = Magnitude.fin w → v < w := by
      intro q1 c hq1 hw
      cases c with
      | false => exact absurd hw (by simp)
      | true =>
        have hw2 : q1 * 2 ^ (leadingBit (v + i) (v + i) - 52) = w :=
          Magnitude.fin.inj (by simpa using hw)
        have hmul := Nat.mul_le_mul_right (2 ^ (leadingBit (v + i) (v + i) - 52)) hq1
        rw [Nat.mul_comm] at hdm
        omega
    unfold toNumber at h
    rw [if_neg hs] at h
    refine key _ _ ?_ h
    split <;> omega

theorem roundQuotient_ge (t : Nat) : t ≤ 160 * roundQuotient t + 160 := by
  unfold roundQuotient
  split
  · -- the quotient below 2^53
    generalize (if 5 * 2 ^ 56 ≤ t * 2 ^ (58 - leadingBit t t) then 58 - leadingBit t t
      else 59 - leadingBit t t) = s
    simp only []
    have hP : 0 < 2 ^ s := by positivity
    have hq : t / 80 * 2 ^ s ≤ t * 2 ^ s / 80 := by
      rw [Nat.le_div_iff_mul_le (by decide)]
      have := Nat.div_mul_le_self t 80
      calc t / 80 * 2 ^ s * 80 = (t / 80 * 80) * 2 ^ s := by ring
        _ ≤ t * 2 ^ s := Nat.mul_le_mul_right _ this
    have hm : t * 2 ^ s / 80 ≤
        (if (decide (40 < t * 2 ^ s % 80) || (t * 2 ^ s % 80 == 40 && t * 2 ^ s / 80 % 2 == 1))
            = true
          then t * 2 ^ s / 80 + 1 else t * 2 ^ s / 80) := by
      split <;> omega
    have hres : t / 80 ≤ (2 * (if (decide (40 < t * 2 ^ s % 80) ||
          (t * 2 ^ s % 80 == 40 && t * 2 ^ s / 80 % 2 == 1)) = true
          then t * 2 ^ s / 80 + 1 else t * 2 ^ s / 80) + 2 ^ s) / 2 ^ (s + 1) := by
      rw [Nat.le_div_iff_mul_le (by positivity), pow_succ]
      have := le_trans hq hm
      calc t / 80 * (2 ^ s * 2) = 2 * (t / 80 * 2 ^ s) := by ring
        _ ≤ _ := by omega
    omega
  · -- the quotient at least 2^53
    rename_i hbig
    have h1 := leadingBit_le t t (by omega) (le_refl _)
    have he : ∀ e, e ≤ leadingBit t t - 58 → 80 * 2 ^ e ≤ t := by
      intro e hle
      have hmono : 2 ^ e ≤ 2 ^ (leadingBit t t - 58) := Nat.pow_le_pow_right (by decide) hle
      by_cases hL : leadingBit t t ≤ 58
      · have : leadingBit t t - 58 = 0 := by omega
        rw [this] at hmono
        simp at hmono
        omega
      · have h2 : 2 ^ leadingBit t t = 2 ^ (leadingBit t t - 58) * 2 ^ 58 := by
          rw [← pow_add]
          congr 1
          omega
        rw [h2] at h1
        have : 80 * 2 ^ e ≤ 2 ^ (leadingBit t t - 58) * 2 ^ 58 := by
          calc 80 * 2 ^ e ≤ 2 ^ 58 * 2 ^ e := Nat.mul_le_mul_right _ (by decide)
            _ = 2 ^ e * 2 ^ 58 := by ring
            _ ≤ 2 ^ (leadingBit t t - 58) * 2 ^ 58 := Nat.mul_le_mul_right _ hmono
        omega
    generalize hedef : (if t < 5 * 2 ^ 57 * 2 ^ (leadingBit t t - 59) then leadingBit t t - 59
      else leadingBit t t - 58) = e
    have hele : e ≤ leadingBit t t - 58 := by
      rw [← hedef]; split <;> omega
    have hD := he e hele
    simp only []
    have hDpos : 0 < 80 * 2 ^ e := by positivity
    have hdm := Nat.div_add_mod t (80 * 2 ^ e)
    have hmod := Nat.mod_lt t hDpos
    have hq1 : 1 ≤ t / (80 * 2 ^ e) := (Nat.one_le_div_iff hDpos).mpr hD
    have hm : t / (80 * 2 ^ e) ≤
        (if (decide (40 * 2 ^ e < t % (80 * 2 ^ e)) ||
            (t % (80 * 2 ^ e) == 40 * 2 ^ e && t / (80 * 2 ^ e) % 2 == 1)) = true
          then t / (80 * 2 ^ e) + 1 else t / (80 * 2 ^ e)) := by
      split <;> omega
    have hmul := Nat.mul_le_mul_right (2 ^ e) hm
    have hX : 80 * 2 ^ e * (t / (80 * 2 ^ e)) = 80 * (t / (80 * 2 ^ e) * 2 ^ e) := by ring
    have hY : 80 * 2 ^ e ≤ 80 * (t / (80 * 2 ^ e) * 2 ^ e) := by
      have := Nat.mul_le_mul_left (80 * 2 ^ e) hq1
      rw [hX] at this
      simpa using this
    rw [hX] at hdm
    omega

/-- Adding the increment of a finite target to a value below the target gives
`Infinity` or a Number above the value. -/
theorem add_increment_gt (t x w : Nat) (hx : x < t)
    (h : toNumber (x + max 1 (roundQuotient t)) = .fin w) : x < w := by
  apply toNumber_add_gt x (max 1 (roundQuotient t)) w (le_max_left _ _) _ h
  have hr := roundQuotient_ge t
  have h1 : 1 ≤ max 1 (roundQuotient t) := le_max_left _ _
  have h2 : roundQuotient t ≤ max 1 (roundQuotient t) := le_max_right _ _
  generalize max 1 (roundQuotient t) = i at *
  by_cases hsmall : t ≤ 2 ^ 52
  · have : i * 2 ^ 52 = i * (2 ^ 52 - 1) + i := by
      have : (2:Nat) ^ 52 = (2 ^ 52 - 1) + 1 := by norm_num
      conv_lhs => rw [this, Nat.mul_add, Nat.mul_one]
    have h3 : 1 * (2 ^ 52 - 1) ≤ i * (2 ^ 52 - 1) := Nat.mul_le_mul_right _ h1
    omega
  · omega
/-! ## Texts: digits, grouping and parsing -/

theorem digitChar_isDigit : ∀ d, d < 10 →
    isDigit (Nat.digitChar d) = true ∧ digitVal (Nat.digitChar d) = d := by
  decide

theorem isDigit_not_ws (c : Char) (h : isDigit c = true) : isWhiteSpace c = false := by
  simp only [isDigit, Bool.and_eq_true, decide_eq_true_eq] at h
  have h1 : (48 : Nat) ≤ c.toNat := h.1
  have h2 : c.toNat ≤ 57 := h.2
  simp only [isWhiteSpace, Bool.or_eq_false_iff, Bool.and_eq_false_imp, beq_eq_false_iff_ne,
    decide_eq_true_eq, decide_eq_false_iff_not]
  omega

theorem isDigit_ne_sep (c : Char) (h : isDigit c = true) :
    (!(c == ',' || c == '+')) = true := by
  have h1 : c ≠ ',' := by rintro rfl; exact absurd h (by decide)
  have h2 : c ≠ '+' := by rintro rfl; exact absurd h (by decide)
  simp [h1, h2]

theorem isDigit_ne_minus (c : Char) (h : isDigit c = true) : c ≠ '-' ∧ c ≠ '+' := by
  constructor
  · rintro rfl; exact absurd h (by decide)
  · rintro rfl; exact absurd h (by decide)

theorem toDigitsCore_allDigits (fuel : Nat) : ∀ (n : Nat) (ds : List Char),
    allDigits ds → allDigits (Nat.toDigitsCore 10 fuel n ds) := by
  induction fuel with
  | zero => intro n ds h; exact h
  | succ fuel ih =>
    intro n ds h
    have hd : isDigit (Nat.digitChar (n % 10)) = true :=
      (digitChar_isDigit (n % 10) (Nat.mod_lt n (by decide))).1
    have hcons : allDigits (Nat.digitChar (n % 10) :: ds) := by
      intro c hc
      rcases List.mem_cons.mp hc with rfl | hc
      · exact hd
      · exact h c hc
    simp only [Nat.toDigitsCore]
    split
    · exact hcons
    · exact ih _ _ hcons

theorem toDigitsCore_ne_nil (fuel : Nat) : ∀ (n : Nat) (ds : List Char),
    Nat.toDigitsCore 10 (fuel + 1) n ds ≠ [] := by
  induction fuel with
  | zero =>
    intro n ds
    simp only [Nat.toDigitsCore]
    split <;> simp
  | succ fuel ih =>
    intro n ds
    rw [Nat.toDigitsCore]
    split
    · simp
    · exact ih _ _

theorem foldl_toDigitsCore (fuel : Nat) : ∀ (n : Nat) (ds : List Char), n < fuel →
    (Nat.toDigitsCore 10 fuel n ds).foldl (fun m c => 10 * m + digitVal c) 0
      = ds.foldl (fun m c => 10 * m + digitVal c) n := by
  induction fuel with
  | zero => intro n ds h; exact absurd h (Nat.not_lt_zero n)
  | succ fuel ih =>
    intro n ds h
    have hv : digitVal (Nat.digitChar (n % 10)) = n % 10 :=
      (digitChar_isDigit (n % 10) (Nat.mod_lt n (by decide))).2
    rw [Nat.toDigitsCore]
    split
    · rename_i h0
      simp only [List.foldl_cons, hv]
      have : 10 * 0 + n % 10 = n := by omega
      rw [this]
    · rename_i h0
      have hlt : n / 10 < fuel := by omega
      rw [ih (n / 10) _ hlt]
      simp only [List.foldl_cons, hv]
      have : 10 * (n / 10) + n % 10 = n := by omega
      rw [this]

theorem toDigits_allDigits (n : Nat) : allDigits (Nat.toDigits 10 n) :=
  toDigitsCore_allDigits _ _ _ (fun _ hc => absurd hc (List.not_mem_nil _))

theorem toDigits_ne_nil (n : Nat) : Nat.toDigits 10 n ≠ [] := toDigitsCore_ne_nil _ _ _

theorem digitsValue_toDigits (n : Nat) : digitsValue (Nat.toDigits 10 n) = n := by
  unfold digitsValue Nat.toDigits
  rw [foldl_toDigitsCore (n + 1) n [] (Nat.lt_succ_self n)]
  rfl

theorem dropWhile_none {p : Char → Bool} : ∀ l : List Char,
    (∀ c ∈ l, p c = false) → l.dropWhile p = l := by
  intro l h
  cases l with
  | nil => rfl
  | cons a l => simp [List.dropWhile, h a (List.mem_cons_self a l)]

theorem takeWhile_all {p : Char → Bool} : ∀ l : List Char,
    (∀ c ∈ l, p c = true) → l.takeWhile p = l := by
  intro l
  induction l with
  | nil => intro _; rfl
  | cons a l ih =>
    intro h
    simp only [List.takeWhile, h a (List.mem_cons_self a l)]
    rw [ih (fun c hc => h c (List.mem_cons_of_mem a hc))]

theorem takeWhile_append_stop {p : Char → Bool} : ∀ (l r : List Char),
    (∀ c ∈ l, p c = true) → (∀ c, r.head? = some c → p c = false) →
    (l ++ r).takeWhile p = l := by
  intro l
  induction l with
  | nil =>
    intro r _ hr
    cases r with
    | nil => rfl
    | cons b r => simp [List.takeWhile, hr b rfl]
  | cons a l ih =>
    intro r h hr
    rw [List.cons_append, List.takeWhile_cons, h a (List.mem_cons_self a l)]
    simp only [if_true]
    rw [ih r (fun c hc => h c (List.mem_cons_of_mem a hc)) hr]

theorem dropWhile_append_all {p : Char → Bool} : ∀ (l r : List Char),
    (∀ c ∈ l, p c = true) → (l ++ r).dropWhile p = r.dropWhile p := by
  intro l
  induction l with
  | nil => intro r _; rfl
  | cons a l ih =>
    intro r h
    rw [List.cons_append, List.dropWhile_cons, h a (List.mem_cons_self a l)]
    simp only [if_true]
    exact ih r (fun c hc => h c (List.mem_cons_of_mem a hc))

/-- The call `parseInt` on a non-empty run of digits reads its decimal value. -/
theorem parseInt_digits (run : List Char) (hne : run ≠ []) (hd : allDigits run) :
    parseInt run = .signed false (toNumber (digitsValue run)) := by
  obtain ⟨a, l, rfl⟩ := List.exists_cons_of_ne_nil hne
  have ha : isDigit a = true := hd a (List.mem_cons_self a l)
  have hws : isWhiteSpace a = false := isDigit_not_ws a ha
  have hsign := isDigit_ne_minus a ha
  have h1 : (a :: l).dropWhile isWhiteSpace = a :: l := by simp [List.dropWhile, hws]
  have h2 : (a :: l).takeWhile isDigit = a :: l := takeWhile_all _ hd
  simp only [parseInt, h1, List.head?_cons]
  have e1 : (some a == some '-') = false := by simp [hsign.1]
  have e2 : (some a == some '+') = false := by simp [hsign.2]
  simp [e1, e2, h2]

/-- The call `match(/\d+/)` on `pre ++ run ++ post` finds `run` when `pre` has no
digit, `run` is a non-empty run of digits and `post` does not start with one. -/
theorem matchDigits_decomp (pre run post : List Char)
    (hpre : ∀ c ∈ pre, isDigit c = false) (hne : run ≠ []) (hrun : allDigits run)
    (hpost : ∀ c, post.head? = some c → isDigit c = false) :
    matchDigits (pre ++ run ++ post) = some run := by
  have h1 : (pre ++ run ++ post).dropWhile (fun c => !isDigit c) = run ++ post := by
    rw [List.append_assoc, dropWhile_append_all pre (run ++ post) (by simpa using hpre)]
    obtain ⟨a, l, rfl⟩ := List.exists_cons_of_ne_nil hne
    have ha : isDigit a = true := hrun a (List.mem_cons_self a l)
    simp [List.dropWhile, ha]
  have h2 : (run ++ post).takeWhile isDigit = run := takeWhile_append_stop run post hrun hpost
  have h3 : (run ++ post).isEmpty = false := by
    obtain ⟨a, l, rfl⟩ := List.exists_cons_of_ne_nil hne
    rfl
  simp only [matchDigits, h1, h2, h3]
  simp

theorem matchDigits_none (s : List Char) (h : ∀ c ∈ s, isDigit c = false) :
    matchDigits s = none := by
  have h1 : s.dropWhile (fun c => !isDigit c) = [] := by
    have := dropWhile_append_all (p := fun c => !isDigit c) s [] (by simpa using h)
    simpa using this
  simp [matchDigits, h1]
theorem trim_decomp (s : List Char) :
    ∃ w1 w2 : List Char, s = w1 ++ trim s ++ w2 ∧
      (∀ c ∈ w1, isWhiteSpace c = true) ∧ (∀ c ∈ w2, isWhiteSpace c = true) := by
  refine ⟨s.takeWhile isWhiteSpace,
    ((s.dropWhile isWhiteSpace).reverse.takeWhile isWhiteSpace).reverse, ?_, ?_, ?_⟩
  · have h1 : s = s.takeWhile isWhiteSpace ++ s.dropWhile isWhiteSpace :=
      (List.takeWhile_append_dropWhile isWhiteSpace s).symm
    have h2 : (s.dropWhile isWhiteSpace).reverse
        = (s.dropWhile isWhiteSpace).reverse.takeWhile isWhiteSpace
          ++ (s.dropWhile isWhiteSpace).reverse.dropWhile isWhiteSpace :=
      (List.takeWhile_append_dropWhile isWhiteSpace _).symm
    have h3 : s.dropWhile isWhiteSpace
        = ((s.dropWhile isWhiteSpace).reverse.dropWhile isWhiteSpace).reverse
          ++ ((s.dropWhile isWhiteSpace).reverse.takeWhile isWhiteSpace).reverse := by
      rw [← List.reverse_append, ← h2, List.reverse_reverse]
    unfold trim
    rw [List.append_assoc, ← h3]
    exact h1
  · intro c hc
    exact (List.mem_takeWhile_imp hc)
  · intro c hc
    exact (List.mem_takeWhile_imp (List.mem_reverse.mp hc))

theorem takeWhile_append_none {p : Char → Bool} : ∀ (l w : List Char),
    (∀ c ∈ w, p c = false) → (l ++ w).takeWhile p = l.takeWhile p := by
  intro l
  induction l with
  | nil =>
    intro w hw
    cases w with
    | nil => rfl
    | cons b w => simp [List.takeWhile_cons, hw b (List.mem_cons_self b w)]
  | cons a l ih =>
    intro w hw
    rw [List.cons_append, List.takeWhile_cons, List.takeWhile_cons, ih w hw]

theorem matchDigits_prefix (w s : List Char) (hw : ∀ c ∈ w, isDigit c = false) :
    matchDigits (w ++ s) = matchDigits s := by
  unfold matchDigits
  rw [dropWhile_append_all w s (by simpa using hw)]

theorem matchDigits_suffix : ∀ (s w : List Char), (∀ c ∈ w, isDigit c = false) →
    matchDigits (s ++ w) = matchDigits s := by
  intro s
  induction s with
  | nil =>
    intro w hw
    rw [List.nil_append, matchDigits_none w hw]
    rfl
  | cons a s ih =>
    intro w hw
    by_cases ha : isDigit a = true
    · simp only [matchDigits, List.cons_append, List.dropWhile_cons, ha, Bool.not_true,
        Bool.false_eq_true, if_false, List.isEmpty_cons, List.takeWhile_cons, if_true]
      rw [takeWhile_append_none s w hw]
    · simp only [Bool.not_eq_true] at ha
      have e1 : matchDigits (a :: s ++ w) = matchDigits (s ++ w) :=
        matchDigits_prefix [a] (s ++ w) (by simpa using ha)
      have e2 : matchDigits (a :: s) = matchDigits s :=
        matchDigits_prefix [a] s (by simpa using ha)
      rw [e1, e2, ih w hw]

theorem ws_not_digit (c : Char) (h : isWhiteSpace c = true) : isDigit c = false := by
  by_contra hd
  simp only [Bool.not_eq_false] at hd
  rw [isDigit_not_ws c hd] at h
  exact absurd h (by decide)

/-- Trimming the text does not change the run of digits that line 123 finds. -/
theorem matchDigits_trim (s : List Char) (q : Char → Bool) :
    matchDigits ((trim s).filter q) = matchDigits (s.filter q) := by
  obtain ⟨w1, w2, hs, h1, h2⟩ := trim_decomp s
  have e : s.filter q = w1.filter q ++ (trim s).filter q ++ w2.filter q := by
    conv_lhs => rw [hs]
    simp [List.filter_append]
  rw [e, matchDigits_suffix _ _ (fun c hc => ws_not_digit c (h2 c (List.mem_filter.mp hc).1)),
    matchDigits_prefix _ _ (fun c hc => ws_not_digit c (h1 c (List.mem_filter.mp hc).1))]

theorem parseTarget_eq (text : String) :
    parseTarget text =
      match matchDigits (stripped text) with
      | some run =>
        match parseInt run with
        | .signed _ target => target
        | .nan => .fin 0
      | none => .fin 0 := by
  unfold parseTarget stripped
  simp only []
  rw [matchDigits_trim]

theorem parseTarget_decomp (text : String) (pre run post : List Char)
    (hs : stripped text = pre ++ run ++ post)
    (hpre : ∀ c ∈ pre, isDigit c = false) (hne : run ≠ []) (hrun : allDigits run)
    (hpost : ∀ c, post.head? = some c → isDigit c = false) :
    parseTarget text = toNumber (digitsValue run) := by
  rw [parseTarget_eq, hs, matchDigits_decomp pre run post hpre hne hrun hpost]
  simp only [parseInt_digits run hne hrun]

theorem parseTarget_no_digit (text : String) (h : ∀ c ∈ text.data, isDigit c = false) :
    parseTarget text = .fin 0 := by
  rw [parseTarget_eq, matchDigits_none]
  intro c hc
  exact h c (List.mem_filter.mp hc).1

theorem filter_groupRev (q : Char → Bool) (hq : q ',' = false) : ∀ (n : Nat) (l : List Char),
    l.length ≤ n → (groupRev l).filter q = l.filter q := by
  intro n
  induction n with
  | zero =>
    intro l hl
    have : l = [] := List.length_eq_zero.mp (Nat.le_zero.mp hl)
    subst this
    rfl
  | succ n ih =>
    intro l hl
    match l with
    | [] => rfl
    | [_] => rfl
    | [_, _] => rfl
    | [_, _, _] => rfl
    | a :: b :: c :: d :: rest =>
      have hlen : (d :: rest).length ≤ n := by
        simp only [List.length_cons] at hl ⊢
        omega
      have := ih (d :: rest) hlen
      simp only [groupRev, List.filter_cons, hq, this]
      simp

theorem stripped_toLocaleString (n : Nat) (suffix : List Char)
    (hsuf : ∀ c ∈ suffix, c = '+') :
    stripped (toLocaleString (.fin n) ++ String.mk suffix) = Nat.toDigits 10 n := by
  have hq : (fun c : Char => !(c == ',' || c == '+')) ',' = false := by decide
  have hD := toDigits_allDigits n
  unfold stripped toLocaleString
  simp only [String.data_append, List.filter_append, List.filter_reverse]
  rw [filter_groupRev _ hq _ _ (le_refl _), List.filter_reverse, List.reverse_reverse]
  have h1 : (Nat.toDigits 10 n).filter (fun c : Char => !(c == ',' || c == '+'))
      = Nat.toDigits 10 n :=
    List.filter_eq_self.mpr (fun c hc => isDigit_ne_sep c (hD c hc))
  have h2 : suffix.filter (fun c : Char => !(c == ',' || c == '+')) = [] := by
    apply List.filter_eq_nil_iff.mpr
    intro c hc
    rw [hsuf c hc]
    decide
  rw [h1, h2, List.append_nil]

theorem stripped_fin (n : Nat) : stripped (toLocaleString (.fin n)) = Nat.toDigits 10 n := by
  have h := stripped_toLocaleString n [] (fun _ hc => absurd hc (List.not_mem_nil _))
  have e : toLocaleString (.fin n) ++ String.mk [] = toLocaleString (.fin n) := by
    apply String.ext
    simp
  rwa [e] at h

/-- The rendering of Numbers is one to one. -/
theorem toLocaleString_injective (v w : Magnitude) (h : toLocaleString v = toLocaleString w) :
    v = w := by
  have hs := congrArg stripped h
  have hinf : stripped (toLocaleString .inf) = ['∞'] := by decide
  have hno : ∀ n : Nat, Nat.toDigits 10 n ≠ ['∞'] := by
    intro n hn
    have := toDigits_allDigits n '∞' (by rw [hn]; exact List.mem_singleton_self _)
    exact absurd this (by decide)
  cases v with
  | fin a =>
    cases w with
    | fin b =>
      rw [stripped_fin, stripped_fin] at hs
      have := congrArg digitsValue hs
      rw [digitsValue_toDigits, digitsValue_toDigits] at this
      rw [this]
    | inf =>
      rw [stripped_fin, hinf] at hs
      exact absurd hs (hno a)
  | inf =>
    cases w with
    | fin b =>
      rw [stripped_fin, hinf] at hs
      exact absurd hs.symm (hno b)
    | inf => rfl

/-! ## Menu and modal: proofs -/

theorem navClick_modal (place : NavPlace) (p : Page) :
    (navClick place p).modal = p.modal ∧ (navClick place p).modalBound = p.modalBound ∧
    (navClick place p).otherModals = p.otherModals ∧ (navClick place p).alerts = p.alerts := by
  cases place
  case navbar => exact ⟨rfl, rfl, rfl, rfl⟩
  all_goals
    simp only [navClick, toggleHandler, closeMenu]
    split <;> exact ⟨rfl, rfl, rfl, rfl⟩

theorem confirmHandler_nav (p : Page) :
    (confirmHandler p).navList = p.navList ∧ (confirmHandler p).menuToggle = p.menuToggle := by
  simp only [confirmHandler]
  split <;> exact ⟨rfl, rfl⟩

theorem modalClick_nav (place : ModalPlace) (p : Page) :
    (modalClick place p).navList = p.navList ∧ (modalClick place p).menuToggle = p.menuToggle := by
  unfold modalClick
  split
  · cases place
    case confirmBtn => exact confirmHandler_nav _
    all_goals exact ⟨rfl, rfl⟩
  · exact ⟨rfl, rfl⟩

theorem toggleHandler_agrees (p : Page) (h : menuAgrees p) : menuAgrees (toggleHandler p) := by
  obtain ⟨l, t, hl, ht, hiff⟩ := h
  have hb : p.menuBound = true := by simp [Page.menuBound, hl, ht]
  refine ⟨⟨!l.hasOpen⟩, ⟨some (boolString (!(t.ariaExpanded == some "true")))⟩, ?_, ?_, ?_⟩
  · simp [toggleHandler, hb, hl]
  · simp [toggleHandler, hb, ht]
  · by_cases hopen : l.hasOpen = true
    · have hx : t.ariaExpanded = some "true" := hiff.mp hopen
      simp [hopen, hx, boolString]
    · have hx : ¬ t.ariaExpanded = some "true" := fun hx => hopen (hiff.mpr hx)
      simp [hopen, hx, boolString]

theorem closeMenu_agrees (p : Page) (h : menuAgrees p) : menuAgrees (closeMenu p) := by
  obtain ⟨l, t, hl, ht, _⟩ := h
  have hb : p.menuBound = true := by simp [Page.menuBound, hl, ht]
  refine ⟨⟨false⟩, ⟨some "false"⟩, ?_, ?_, ?_⟩
  · simp [closeMenu, hb, hl]
  · simp [closeMenu, hb, ht]
  · simp

theorem escapeHandler_nav (p : Page) :
    (escapeHandler p).navList = p.navList.map (fun _ => { hasOpen := false }) ∧
    (escapeHandler p).menuToggle
      = p.menuToggle.map (fun _ => { ariaExpanded := some "false" }) := by
  unfold escapeHandler
  split <;> exact ⟨rfl, rfl⟩

theorem step_agrees (e : Event) (p : Page) (h : menuAgrees p) : menuAgrees (step e p) := by
  cases e with
  | click nav modal =>
    have h1 : menuAgrees (navClick nav p) := by
      cases nav
      · exact toggleHandler_agrees p h
      · exact closeMenu_agrees p h
      · exact h
      · exact closeMenu_agrees p h
    obtain ⟨l, t, hl, ht, hiff⟩ := h1
    have hn := modalClick_nav modal (navClick nav p)
    exact ⟨l, t, by simp only [step]; rw [hn.1, hl], by simp only [step]; rw [hn.2, ht], hiff⟩
  | typeMealCount text =>
    obtain ⟨l, t, hl, ht, hiff⟩ := h
    exact ⟨l, t, hl, ht, hiff⟩
  | escape =>
    obtain ⟨l, t, hl, ht, _⟩ := h
    have hn := escapeHandler_nav p
    refine ⟨⟨false⟩, ⟨some "false"⟩, ?_, ?_, ?_⟩
    · simp only [step]; rw [hn.1, hl]; rfl
    · simp only [step]; rw [hn.2, ht]; rfl
    · simp

theorem run_agrees (evs : List Event) : ∀ p : Page, menuAgrees p → menuAgrees (run evs p) := by
  induction evs with
  | nil => intro p h; exact h
  | cons e es ih => intro p h; exact ih (step e p) (step_agrees e p h)

theorem hideFirst_none (l : List Bool) (h : ∀ x ∈ l, x = true) : hideFirst l = none := by
  induction l with
  | nil => rfl
  | cons a l ih =>
    have ha : a = true := h a (List.mem_cons_self a l)
    have hl := ih (fun x hx => h x (List.mem_cons_of_mem a hx))
    simp [hideFirst, ha, hl]

/-- C2 (as amended): on a page whose markup gives the link list without the
class `open`, after page load and after every sequence of interactions (clicks
on the toggle, on a link of the list, elsewhere inside or outside the navbar, on
any modal control, typing, Escape) the list has the class `open` if and only if
the toggle has `aria-expanded="true"`. -/
theorem menu_invariant (l : NavList) (t : MenuToggle) (others : List Bool)
    (existing : Option Modal) (evs : List Event) (hmarkup : l.hasOpen = false) :
    menuAgrees (run evs (init (some l) (some t) others existing)) := by
  apply run_agrees
  refine ⟨l, ⟨some "false"⟩, rfl, rfl, ?_⟩
  simp [hmarkup]

/-- Witness for C2: a list without `open` in the markup, then a toggle click, an
outside click, a toggle click and Escape. -/
theorem menu_invariant_witness :
    (NavList.mk false).hasOpen = false ∧
    menuAgrees (run [.click .toggle .elsewhere, .click .outside .elsewhere,
      .click .toggle .elsewhere, .escape] (init (some ⟨false⟩) (some ⟨none⟩) [] none)) :=
  ⟨rfl, menu_invariant ⟨false⟩ ⟨none⟩ [] none _ rfl⟩

/-- C2 (counterexample): when the markup gives the link list the class `open`,
page load leaves it there and sets `aria-expanded="false"`; after one click on the
toggle the list is without `open` while the toggle has `aria-expanded="true"`. -/
theorem menu_disagrees_on_open_markup :
    (init (some ⟨true⟩) (some ⟨none⟩) [] none).navList = some ⟨true⟩ ∧
    (init (some ⟨true⟩) (some ⟨none⟩) [] none).menuToggle = some ⟨some "false"⟩ ∧
    (run [.click .toggle .elsewhere] (init (some ⟨true⟩) (some ⟨none⟩) [] none)).navList
      = some ⟨false⟩ ∧
    (run [.click .toggle .elsewhere] (init (some ⟨true⟩) (some ⟨none⟩) [] none)).menuToggle
      = some ⟨some "true"⟩ ∧
    ¬ menuAgrees (run [.click .toggle .elsewhere] (init (some ⟨true⟩) (some ⟨none⟩) [] none)) := by
  refine ⟨rfl, rfl, rfl, rfl, ?_⟩
  rintro ⟨l, t, hl, ht, hiff⟩
  have hl2 : l = ⟨false⟩ := by
    have : (some (⟨false⟩ : NavList)) = some l := hl
    exact (Option.some.inj this).symm
  have ht2 : t = ⟨some "true"⟩ := by
    have : (some (⟨some "true"⟩ : MenuToggle)) = some t := ht
    exact (Option.some.inj this).symm
  subst hl2; subst ht2
  exact Bool.false_ne_true (hiff.mpr rfl)

/-- C3 (failing run): from the page as loaded, a click on an opener followed by
Escape leaves the modal with the class `hidden` and with `aria-hidden="false"`:
the two representations disagree. -/
theorem modal_escape_breaks_agreement :
    (run [.click .outside .opener, .escape] (init (some ⟨false⟩) (some ⟨none⟩) [] none)).modal
      = { hidden := true, ariaHidden := "false", mealCount := "" } ∧
    ¬ modalAgrees (run [.click .outside .opener, .escape]
        (init (some ⟨false⟩) (some ⟨none⟩) [] none)).modal := by
  refine ⟨rfl, ?_⟩
  intro h
  have h2 : ("false" : String) = "true" := h.mp rfl
  exact absurd h2 (by decide)

/-- C9 (failing input): with the menu open and the modal open, one Escape
keypress leaves the list without `open` and the toggle with
`aria-expanded="false"` (the state an outside click gives), and gives the modal
the class `hidden`, but leaves `aria-hidden="false"`: the modal is not in the
state that `closeModal` establishes. -/
theorem escape_leaves_modal_half_closed :
    (escapeHandler (⟨some ⟨true⟩, some ⟨some "true"⟩, openModal newModal, true, [], []⟩ : Page))
      = ⟨some ⟨false⟩, some ⟨some "false"⟩, ⟨true, "false", ""⟩, true, [], []⟩ ∧
    (escapeHandler (⟨some ⟨true⟩, some ⟨some "true"⟩, openModal newModal, true, [], []⟩ : Page)).navList
      = (closeMenu (⟨some ⟨true⟩, some ⟨some "true"⟩, openModal newModal, true, [], []⟩ : Page)).navList ∧
    (escapeHandler (⟨some ⟨true⟩, some ⟨some "true"⟩, openModal newModal, true, [], []⟩ : Page)).menuToggle
      = (closeMenu (⟨some ⟨true⟩, some ⟨some "true"⟩, openModal newModal, true, [], []⟩ : Page)).menuToggle ∧
    ¬ (escapeHandler (⟨some ⟨true⟩, some ⟨some "true"⟩, openModal newModal, true, [], []⟩ : Page)).modal.isClosed := by
  refine ⟨rfl, rfl, rfl, ?_⟩
  intro h
  have h2 : ("false" : String) = "true" := h.2
  exact absurd h2 (by decide)
/-! ## Modal: the confirm handler and the close transitions -/

theorem parseInt_toDigits (n : Nat) :
    parseInt (Nat.toDigits 10 n) = .signed false (toNumber n) := by
  rw [parseInt_digits _ (toDigits_ne_nil n) (toDigits_allDigits n), digitsValue_toDigits]

/-- C4 (counterexample): on an open modal whose input holds "9007199254740993"
the confirm handler acknowledges 9007199254740992 meals, the Number that the
reading is, and not the count entered. -/
theorem confirm_names_rounded_count :
    (confirmHandler ⟨none, none, ⟨false, "false", "9007199254740993"⟩, true, [], []⟩)
      = ⟨none, none, ⟨true, "true", ""⟩, true, [],
          [.thanks (.signed false (.fin 9007199254740992))]⟩ ∧
    Alert.text (.thanks (.signed false (.fin 9007199254740992)))
      = some "Thank you! You sponsored 9007199254740992 meal(s)." ∧
    Alert.text (.thanks (.signed false (.fin 9007199254740992)))
      ≠ some "Thank you! You sponsored 9007199254740993 meal(s)." := by
  decide

/-- C4 (as amended): on an open modal, when the integer reading of the
meal-count text is missing (`NaN`), negative or zero, the confirm handler raises
the alert "Enter a valid number of meals." and changes nothing else (the modal
stays open, the text stays); otherwise it raises the acknowledgment that holds
the reading, the modal is closed (class `hidden`, `aria-hidden="true"`) and the
input is empty.  The reading is the Number nearest to the integer entered: for
an entered count below `2^53` it is that count, and for a reading up to `2^53`
the acknowledgment reads "Thank you! You sponsored <reading> meal(s).". -/
theorem confirm_contract (p : Page) (hopen : p.modal.isOpen) :
    ((parseInt p.modal.mealCount.data = .nan ∨
        (∃ m, parseInt p.modal.mealCount.data = .signed true m) ∨
        parseInt p.modal.mealCount.data = .signed false (.fin 0)) →
      confirmHandler p = { p with alerts := .invalid :: p.alerts } ∧
      (confirmHandler p).modal.isOpen ∧
      (confirmHandler p).modal.mealCount = p.modal.mealCount) ∧
    (∀ m, parseInt p.modal.mealCount.data = .signed false m → m ≠ .fin 0 →
      (confirmHandler p).alerts = .thanks (.signed false m) :: p.alerts ∧
      (confirmHandler p).modal.isClosed ∧
      (confirmHandler p).modal.mealCount = "") ∧
    Alert.text .invalid = some "Enter a valid number of meals." ∧
    (∀ n : Nat, n ≤ 2 ^ 53 →
      Alert.text (.thanks (.signed false (.fin n)))
        = some ("Thank you! You sponsored " ++ toString n ++ " meal(s).")) ∧
    (∀ n : Nat, n < 2 ^ 53 → parseInt (Nat.toDigits 10 n) = .signed false (.fin n)) := by
  refine ⟨?_, ?_, rfl, ?_, ?_⟩
  · intro h
    have hr : rejected (parseInt p.modal.mealCount.data) = true := by
      rcases h with h | ⟨m, h⟩ | h <;> rw [h] <;> rfl
    have key : confirmHandler p = { p with alerts := .invalid :: p.alerts } := by
      simp only [confirmHandler, hr, if_true]
    rw [key]
    exact ⟨rfl, hopen, rfl⟩
  · intro m hm hne
    have hr : rejected (parseInt p.modal.mealCount.data) = false := by
      rw [hm]
      cases m with
      | inf => rfl
      | fin n =>
        have : n ≠ 0 := fun h0 => hne (by rw [h0])
        simp only [rejected, decide_eq_false_iff_not]
        omega
    have key : confirmHandler p = { p with
        alerts := .thanks (.signed false m) :: p.alerts,
        modal := { closeModal p.modal with mealCount := "" } } := by
      have hr2 : rejected (.signed false m) = false := by rw [hm] at hr; exact hr
      simp [confirmHandler, hm, hr2]
    rw [key]
    exact ⟨rfl, ⟨rfl, rfl⟩, rfl⟩
  · intro n hn
    simp only [Alert.text, hn, if_true]
  · intro n hn
    rw [parseInt_toDigits, toNumber_small n hn]

/-- Witness for C4: an open modal whose input holds "5" is closed and emptied
by the confirm handler, with the acknowledgment for 5 meals; with "-3", "0" or
"" the modal stays open, the text stays and the alert is raised. -/
theorem confirm_contract_witness :
    (Modal.mk false "false" "5").isOpen ∧
    ((confirmHandler ⟨none, none, ⟨false, "false", "5"⟩, true, [], []⟩).alerts
        = [.thanks (.signed false (.fin 5))] ∧
      (confirmHandler ⟨none, none, ⟨false, "false", "5"⟩, true, [], []⟩).modal.isClosed ∧
      (confirmHandler ⟨none, none, ⟨false, "false", "5"⟩, true, [], []⟩).modal.mealCount = "") ∧
    Alert.text (.thanks (.signed false (.fin 5)))
      = some ("Thank you! You sponsored " ++ toString 5 ++ " meal(s).") ∧
    (confirmHandler ⟨none, none, ⟨false, "false", "-3"⟩, true, [], []⟩).modal.mealCount = "-3" ∧
    (confirmHandler ⟨none, none, ⟨false, "false", "0"⟩, true, [], []⟩).modal.isOpen ∧
    (confirmHandler ⟨none, none, ⟨false, "false", ""⟩, true, [], []⟩)
      = ⟨none, none, ⟨false, "false", ""⟩, true, [], [.invalid]⟩ :=
  ⟨⟨rfl, rfl⟩,
   (confirm_contract ⟨none, none, ⟨false, "false", "5"⟩, true, [], []⟩ ⟨rfl, rfl⟩).2.1
     (.fin 5) (by decide) (by decide),
   (confirm_contract ⟨none, none, ⟨false, "false", "5"⟩, true, [], []⟩ ⟨rfl, rfl⟩).2.2.2.1
     5 (by decide),
   ((confirm_contract ⟨none, none, ⟨false, "false", "-3"⟩, true, [], []⟩ ⟨rfl, rfl⟩).1
     (Or.inr (Or.inl ⟨.fin 3, by decide⟩))).2.2,
   ((confirm_contract ⟨none, none, ⟨false, "false", "0"⟩, true, [], []⟩ ⟨rfl, rfl⟩).1
     (Or.inr (Or.inr (by decide)))).2.1,
   ((confirm_contract ⟨none, none, ⟨false, "false", ""⟩, true, [], []⟩ ⟨rfl, rfl⟩).1
     (Or.inl (by decide))).1⟩

/-- C7 (counterexample): an open modal whose input holds "5" still holds "5"
after a click on the close control, on the cancel control, on the backdrop, and
after Escape, each of which gives the modal the class `hidden`. -/
theorem close_keeps_meal_count :
    (step (.click .outside .closeBtn) ⟨none, none, ⟨false, "false", "5"⟩, true, [], []⟩).modal
      = ⟨true, "true", "5"⟩ ∧
    (step (.click .outside .cancelBtn) ⟨none, none, ⟨false, "false", "5"⟩, true, [], []⟩).modal
      = ⟨true, "true", "5"⟩ ∧
    (step (.click .outside .backdrop) ⟨none, none, ⟨false, "false", "5"⟩, true, [], []⟩).modal
      = ⟨true, "true", "5"⟩ ∧
    (step .escape ⟨none, none, ⟨false, "false", "5"⟩, true, [], []⟩).modal
      = ⟨true, "false", "5"⟩ ∧
    (step (.click .outside .closeBtn)
        ⟨none, none, ⟨false, "false", "5"⟩, true, [], []⟩).modal.mealCount ≠ "" := by
  refine ⟨rfl, rfl, rfl, rfl, ?_⟩
  decide

/-- C7 (as amended): from an open modal of the script with any input text, a
successful confirm leaves the modal with the class `hidden` and the input
empty; the close control, the cancel control and a backdrop click leave the
modal with the class `hidden` and the input text as it was; Escape leaves the
input text as it was, and gives the modal the class `hidden` when every other
`meal-modal` element before it in the document is hidden. -/
theorem close_transitions (p : Page) (nav : NavPlace) (hopen : p.modal.isOpen)
    (hbound : p.modalBound = true) :
    (∀ m, parseInt p.modal.mealCount.data = .signed false m → m ≠ .fin 0 →
      (step (.click nav .confirmBtn) p).modal.hidden = true ∧
      (step (.click nav .confirmBtn) p).modal.mealCount = "") ∧
    ((step (.click nav .closeBtn) p).modal.hidden = true ∧
      (step (.click nav .closeBtn) p).modal.mealCount = p.modal.mealCount) ∧
    ((step (.click nav .cancelBtn) p).modal.hidden = true ∧
      (step (.click nav .cancelBtn) p).modal.mealCount = p.modal.mealCount) ∧
    ((step (.click nav .backdrop) p).modal.hidden = true ∧
      (step (.click nav .backdrop) p).modal.mealCount = p.modal.mealCount) ∧
    (step .escape p).modal.mealCount = p.modal.mealCount ∧
    ((∀ x ∈ p.otherModals, x = true) → (step .escape p).modal.hidden = true) := by
  obtain ⟨hm, hb, _, _⟩ := navClick_modal nav p
  have hb2 : (navClick nav p).modalBound = true := by rw [hb]; exact hbound
  have hopened : openModal p.modal = p.modal := by
    obtain ⟨h1, h2⟩ := hopen
    cases hp : p.modal with
    | mk hidden ariaHidden mealCount =>
      rw [hp] at h1 h2
      simp only at h1 h2
      simp [openModal, h1, h2]
  refine ⟨?_, ?_, ?_, ?_, ?_, ?_⟩
  · intro m hv hne
    have hr : rejected (parseInt p.modal.mealCount.data) = false := by
      rw [hv]
      cases m with
      | inf => rfl
      | fin n =>
        have : n ≠ 0 := fun h0 => hne (by rw [h0])
        simp only [rejected, decide_eq_false_iff_not]
        omega
    simp only [step, modalClick, hb2, if_true, confirmHandler, hm, hopened, hr]
    exact ⟨rfl, rfl⟩
  · simp [step, modalClick, hb2, closeModal, hm]
  · simp [step, modalClick, hb2, closeModal, hm]
  · simp [step, modalClick, hb2, closeModal, hm]
  · simp only [step, escapeHandler]
    split
    · rfl
    · split <;> rfl
  · intro hall
    have hh : p.modal.hidden = false := hopen.1
    simp [step, escapeHandler, hideFirst_none _ hall, hh]

/-- Witness for C7: an open modal whose input holds "5" is emptied by a
successful confirm, keeps "5" under the close control and under Escape, and
Escape gives it the class `hidden`. -/
theorem close_transitions_witness :
    (Modal.mk false "false" "5").isOpen ∧
    (step (.click .outside .confirmBtn)
        ⟨none, none, ⟨false, "false", "5"⟩, true, [], []⟩).modal.mealCount = "" ∧
    (step (.click .outside .closeBtn)
        ⟨none, none, ⟨false, "false", "5"⟩, true, [], []⟩).modal.mealCount = "5" ∧
    (step .escape ⟨none, none, ⟨false, "false", "5"⟩, true, [true], []⟩).modal.mealCount
      = "5" ∧
    (step .escape ⟨none, none, ⟨false, "false", "5"⟩, true, [true], []⟩).modal.hidden
      = true :=
  ⟨⟨rfl, rfl⟩,
   ((close_transitions ⟨none, none, ⟨false, "false", "5"⟩, true, [], []⟩ .outside ⟨rfl, rfl⟩
      rfl).1 (.fin 5) (by decide) (by decide)).2,
   (close_transitions ⟨none, none, ⟨false, "false", "5"⟩, true, [], []⟩ .outside ⟨rfl, rfl⟩
      rfl).2.1.2,
   (close_transitions ⟨none, none, ⟨false, "false", "5"⟩, true, [true], []⟩ .outside
      ⟨rfl, rfl⟩ rfl).2.2.2.2.1,
   (close_transitions ⟨none, none, ⟨false, "false", "5"⟩, true, [true], []⟩ .outside
      ⟨rfl, rfl⟩ rfl).2.2.2.2.2 (by simp)⟩
/-! ## Contact form: proofs -/

/-- C6 (counterexample): a valid form whose submit control is labelled
"Submit" and whose field has the default "x" ends, after the delayed callback,
with the label "Send Message" and the field holding "x". -/
theorem submit_label_not_restored :
    (submitTimeout (submitHandler (fun _ => true)
        ⟨[⟨"hello", "x"⟩], some ⟨false, "Submit"⟩, "", "", 0⟩)).submitBtn
      = some ⟨false, "Send Message"⟩ ∧
    ("Send Message" : String) ≠ "Submit" ∧
    (submitTimeout (submitHandler (fun _ => true)
        ⟨[⟨"hello", "x"⟩], some ⟨false, "Submit"⟩, "", "", 0⟩)).fields
      = [⟨"x", "x"⟩] := by
  refine ⟨rfl, by decide, rfl⟩

/-- C6 (as amended): when the form passes validation, the handler disables the
submit control, labels it "Sending..." and schedules the callback; after the
callback the control is enabled and labelled "Send Message" (its former label
when that was "Send Message"), every field holds its default value (is empty
when the markup gives no default), and the inline message is the green
confirmation.  When validation fails the fields, the control and the timers are
unchanged and the inline message is the red "Please fill all required fields.". -/
theorem contact_form_contract (checkValidity : List Field → Bool) (f : ContactForm) :
    (checkValidity f.fields = true →
      (submitHandler checkValidity f).submitBtn
        = f.submitBtn.map (fun _ => ⟨true, "Sending..."⟩) ∧
      (submitHandler checkValidity f).timeouts = f.timeouts + 1 ∧
      (submitTimeout (submitHandler checkValidity f)).submitBtn
        = f.submitBtn.map (fun _ => ⟨false, "Send Message"⟩) ∧
      (∀ b, f.submitBtn = some b → b.textContent = "Send Message" →
        (submitTimeout (submitHandler checkValidity f)).submitBtn
          = some ⟨false, b.textContent⟩) ∧
      (submitTimeout (submitHandler checkValidity f)).fields.map (fun x => x.value)
        = f.fields.map (fun x => x.defaultValue) ∧
      ((∀ x ∈ f.fields, x.defaultValue = "") →
        ∀ x ∈ (submitTimeout (submitHandler checkValidity f)).fields, x.value = "") ∧
      (submitTimeout (submitHandler checkValidity f)).msgText
        = "Thank you \u00e2\u20ac\u201d we received your message." ∧
      (submitTimeout (submitHandler checkValidity f)).msgColor = "#2E7D32" ∧
      (submitTimeout (submitHandler checkValidity f)).timeouts = f.timeouts) ∧
    (checkValidity f.fields = false →
      (submitHandler checkValidity f).fields = f.fields ∧
      (submitHandler checkValidity f).submitBtn = f.submitBtn ∧
      (submitHandler checkValidity f).timeouts = f.timeouts ∧
      (submitHandler checkValidity f).msgText = "Please fill all required fields." ∧
      (submitHandler checkValidity f).msgColor = "#c0392b") := by
  constructor
  · intro hv
    have hs : submitHandler checkValidity f =
        { f with msgText := "",
                 submitBtn := f.submitBtn.map (fun _ => ⟨true, "Sending..."⟩),
                 timeouts := f.timeouts + 1 } := by
      simp [submitHandler, hv]
    rw [hs]
    refine ⟨rfl, rfl, ?_, ?_, ?_, ?_, rfl, rfl, ?_⟩
    · simp [submitTimeout, Option.map_map, Function.comp_def]
    · intro b hb hlabel
      simp [submitTimeout, hb, hlabel]
    · simp [submitTimeout, resetFields, List.map_map, Function.comp_def]
    · intro hdef x hx
      simp only [submitTimeout, resetFields, List.mem_map] at hx
      obtain ⟨y, hy, rfl⟩ := hx
      exact hdef y hy
    · simp [submitTimeout]
  · intro hv
    have hs : submitHandler checkValidity f =
        { f with msgText := "Please fill all required fields.", msgColor := "#c0392b" } := by
      simp [submitHandler, hv]
    rw [hs]
    exact ⟨rfl, rfl, rfl, rfl, rfl⟩

/-- Witness for C6: a filled form whose control is labelled "Send Message" and
whose fields have no default ends enabled, with that label and empty fields; a
form with an empty required field keeps its values and shows the red message. -/
theorem contact_form_contract_witness :
    (submitTimeout (submitHandler (fun fs => fs.all (fun x => x.value != ""))
        ⟨[⟨"Ann", ""⟩, ⟨"Hello", ""⟩], some ⟨false, "Send Message"⟩, "", "", 0⟩)).submitBtn
      = some ⟨false, "Send Message"⟩ ∧
    (submitTimeout (submitHandler (fun fs => fs.all (fun x => x.value != ""))
        ⟨[⟨"Ann", ""⟩, ⟨"Hello", ""⟩], some ⟨false, "Send Message"⟩, "", "", 0⟩)).fields.map
        (fun x => x.value)
      = ["", ""] ∧
    (submitHandler (fun fs => fs.all (fun x => x.value != ""))
        ⟨[⟨"Ann", ""⟩, ⟨"", ""⟩], some ⟨false, "Send Message"⟩, "", "", 0⟩).fields
      = [⟨"Ann", ""⟩, ⟨"", ""⟩] ∧
    (submitHandler (fun fs => fs.all (fun x => x.value != ""))
        ⟨[⟨"Ann", ""⟩, ⟨"", ""⟩], some ⟨false, "Send Message"⟩, "", "", 0⟩).msgText
      = "Please fill all required fields." :=
  ⟨((contact_form_contract (fun fs => fs.all (fun x => x.value != ""))
      ⟨[⟨"Ann", ""⟩, ⟨"Hello", ""⟩], some ⟨false, "Send Message"⟩, "", "", 0⟩).1
        (by decide)).2.2.1,
   ((contact_form_contract (fun fs => fs.all (fun x => x.value != ""))
      ⟨[⟨"Ann", ""⟩, ⟨"Hello", ""⟩], some ⟨false, "Send Message"⟩, "", "", 0⟩).1
        (by decide)).2.2.2.2.1,
   ((contact_form_contract (fun fs => fs.all (fun x => x.value != ""))
      ⟨[⟨"Ann", ""⟩, ⟨"", ""⟩], some ⟨false, "Send Message"⟩, "", "", 0⟩).2
        (by decide)).1,
   ((contact_form_contract (fun fs => fs.all (fun x => x.value != ""))
      ⟨[⟨"Ann", ""⟩, ⟨"", ""⟩], some ⟨false, "Send Message"⟩, "", "", 0⟩).2
        (by decide)).2.2.2.1⟩

/-! ## Counters: the latch -/

theorem startCounters_latched (top : Option Int) (h : Int) (s : Stats)
    (hs : s.countersStarted = true) : startCounters top h s = s := by
  simp [startCounters, hs]

theorem statsStep_latch (e : StatsEvent) (s : Stats) (hs : s.countersStarted = true) :
    (statsStep e s).countersStarted = true := by
  cases e with
  | scroll top h => simp only [statsStep]; rw [startCounters_latched top h s hs]; exact hs
  | timer i => exact hs

theorem statsRun_latch (evs : List StatsEvent) :
    ∀ s : Stats, s.countersStarted = true → (statsRun evs s).countersStarted = true := by
  induction evs with
  | nil => intro s hs; exact hs
  | cons e es ih => intro s hs; exact ih _ (statsStep_latch e s hs)

theorem startsIn_latched (evs : List StatsEvent) :
    ∀ s : Stats, s.countersStarted = true → startsIn evs s = 0 := by
  induction evs with
  | nil => intro s _; rfl
  | cons e es ih =>
    intro s hs
    simp [startsIn, hs, ih _ (statsStep_latch e s hs)]

theorem startsIn_le_one (evs : List StatsEvent) : ∀ s : Stats, startsIn evs s ≤ 1 := by
  induction evs with
  | nil => intro s; simp [startsIn]
  | cons e es ih =>
    intro s
    by_cases h1 : (statsStep e s).countersStarted = true
    · have h0 := startsIn_latched es _ h1
      simp only [startsIn, h0]
      split <;> simp
    · have := ih (statsStep e s)
      simp only [startsIn]
      simp only [Bool.not_eq_true] at h1
      simp [h1]
      exact this

/-- C8: over every sequence of `startCounters` invocations and timer callbacks
that follows the markup state (the first invocation being the call at load), the
latch is set, and so the animations are started, at most once; an invocation
either changes nothing or finds the latch unset and the section within the
threshold, sets the latch and starts every counter; once the latch is
set it stays set over every later event, and every later invocation of
`startCounters`, wherever the section is, returns the state as it found it. -/
theorem counters_start_once (texts : List String) (evs : List StatsEvent) :
    startsIn evs (statsMarkup texts) ≤ 1 ∧
    (∀ (s : Stats) (top : Option Int) (h : Int),
      startCounters top h s = s ∨
      (s.countersStarted = false ∧ isInViewport top h 200 = true ∧
        startCounters top h s
          = { countersStarted := true, counters := s.counters.map startCounter })) ∧
    (∀ s : Stats, s.countersStarted = true →
      (∀ later : List StatsEvent, (statsRun later s).countersStarted = true) ∧
      (∀ (top : Option Int) (h : Int), startCounters top h s = s)) := by
  refine ⟨startsIn_le_one evs _, ?_, ?_⟩
  · intro s top h
    by_cases hs : s.countersStarted = true
    · exact Or.inl (startCounters_latched top h s hs)
    · simp only [Bool.not_eq_true] at hs
      by_cases hv : isInViewport top h 200 = true
      · right
        exact ⟨hs, hv, by simp [startCounters, hs, hv]⟩
      · left
        simp only [Bool.not_eq_true] at hv
        simp [startCounters, hs, hv]
  · intro s hs
    exact ⟨fun later => statsRun_latch later s hs, fun top h => startCounters_latched top h s hs⟩


/-- Witness for C8: a load with the section below the threshold, a scroll that
brings it within, a timer callback and two more scrolls (out of and within the
threshold) start the animations exactly once. -/
theorem counters_start_once_witness :
    startsIn [.scroll (some 900) 800, .scroll (some 500) 800, .timer 0,
        .scroll (some 950) 800, .scroll (some 100) 800] (statsMarkup ["500"]) ≤ 1 ∧
    startsIn [.scroll (some 900) 800, .scroll (some 500) 800, .timer 0,
        .scroll (some 950) 800, .scroll (some 100) 800] (statsMarkup ["500"]) = 1 :=
  ⟨(counters_start_once ["500"] _).1, by decide⟩

/-! ## Counters: the animation -/

theorem timerFires_idle (c : Counter) (h : c.scheduled = false) : timerFires c = c := by
  simp [timerFires, h]

theorem runTimers_idle (k : Nat) (c : Counter) (h : c.scheduled = false) :
    runTimers k c = c := by
  induction k with
  | zero => rfl
  | succ k ih => simp only [runTimers]; rw [timerFires_idle c h]; exact ih

theorem runTimers_add (j k : Nat) : ∀ c : Counter,
    runTimers (j + k) c = runTimers k (runTimers j c) := by
  induction j with
  | zero => intro c; simp [runTimers]
  | succ j ih =>
    intro c
    have : j + 1 + k = (j + k) + 1 := by omega
    rw [this]
    simp only [runTimers]
    exact ih _

theorem runTimers_succ (k : Nat) (c : Counter) :
    runTimers (k + 1) c = timerFires (runTimers k c) := by
  rw [runTimers_add k 1 c]
  rfl

theorem runTimers_succ_front (k : Nat) (c : Counter) :
    runTimers (k + 1) c = runTimers k (timerFires c) := rfl

theorem running_scheduled (t v : Magnitude) : (running t v).scheduled = true := rfl

theorem ended_scheduled (t v : Magnitude) : (ended t v).scheduled = false := rfl

theorem tick_cases (t v : Magnitude) (text : String) (s : Bool) :
    tick ⟨text, some ⟨t, increment t, v, s⟩⟩ =
      if (v.add (increment t)).lt t = true then running t (v.add (increment t))
      else ended t (v.add (increment t)) := by
  simp only [tick]
  split <;> rfl

theorem startCounter_started (text : String) (a : Option Animation)
    (h : parseTarget text ≠ .fin 0) :
    startCounter ⟨text, a⟩ =
      if ((Magnitude.fin 0).add (increment (parseTarget text))).lt (parseTarget text) = true
      then running (parseTarget text) ((Magnitude.fin 0).add (increment (parseTarget text)))
      else ended (parseTarget text) ((Magnitude.fin 0).add (increment (parseTarget text))) := by
  simp only [startCounter, h, if_false]
  exact tick_cases _ _ _ _

theorem timerFires_running (t v : Magnitude) :
    timerFires (running t v) =
      if (v.add (increment t)).lt t = true then running t (v.add (increment t))
      else ended t (v.add (increment t)) := by
  have h : timerFires (running t v) = tick (running t v) := by
    simp [timerFires, running_scheduled]
  rw [h]
  exact tick_cases _ _ _ _

/-- After any number of timer callbacks a started counter either runs, showing
an accumulator below the target, or has ended. -/
theorem run_started (text : String) (a : Option Animation) (h : parseTarget text ≠ .fin 0)
    (k : Nat) :
    ∃ v : Magnitude,
      (runTimers k (startCounter ⟨text, a⟩) = running (parseTarget text) v ∧
        v.lt (parseTarget text) = true) ∨
      runTimers k (startCounter ⟨text, a⟩) = ended (parseTarget text) v := by
  induction k with
  | zero =>
    simp only [runTimers]
    rw [startCounter_started text a h]
    split
    · rename_i hlt
      exact ⟨_, Or.inl ⟨rfl, hlt⟩⟩
    · exact ⟨_, Or.inr rfl⟩
  | succ k ih =>
    rw [runTimers_succ]
    obtain ⟨v, ⟨e, _⟩ | e⟩ := ih
    · rw [e, timerFires_running]
      split
      · rename_i hlt
        exact ⟨_, Or.inl ⟨rfl, hlt⟩⟩
      · exact ⟨_, Or.inr rfl⟩
    · rw [e, timerFires_idle _ (ended_scheduled _ _)]
      exact ⟨v, Or.inr rfl⟩

theorem lt_asymm_magnitude (a b : Magnitude) (h1 : a.lt b = true) (h2 : b.lt a = true) :
    False := by
  cases a <;> cases b <;> simp [Magnitude.lt] at h1 h2
  omega

/-- One timer callback on a counter that runs towards a finite target: it ends,
or it runs on with a larger accumulator below the target. -/
theorem timerFires_progress (t x : Nat) (hx : x < t) :
    (∃ v, timerFires (running (.fin t) (.fin x)) = ended (.fin t) v) ∨
    (∃ y, x < y ∧ y < t ∧ timerFires (running (.fin t) (.fin x)) = running (.fin t) (.fin y)) := by
  rw [timerFires_running]
  split
  · rename_i hlt
    right
    have hinc : increment (.fin t) = .fin (max 1 (roundQuotient t)) := rfl
    rw [hinc] at hlt ⊢
    simp only [Magnitude.add] at hlt ⊢
    cases hw : toNumber (x + max 1 (roundQuotient t)) with
    | inf => rw [hw] at hlt; simp [Magnitude.lt] at hlt
    | fin y =>
      rw [hw] at hlt
      have hyt : y < t := by simpa [Magnitude.lt] using hlt
      exact ⟨y, add_increment_gt t x y hx hw, hyt, rfl⟩
  · left
    exact ⟨_, rfl⟩

/-- A counter that runs towards a finite target ends after at most as many
timer callbacks as the accumulator is below the target. -/
theorem running_terminates (t : Nat) : ∀ (d x : Nat), x < t → t - x ≤ d →
    ∃ n, n ≤ d ∧
      (∀ k, k < n → (runTimers k (running (.fin t) (.fin x))).scheduled = true) ∧
      (∀ k, n ≤ k →
        (runTimers k (running (.fin t) (.fin x))).scheduled = false ∧
        (runTimers k (running (.fin t) (.fin x))).textContent
          = toLocaleString (.fin t) ++ "+") := by
  intro d
  induction d with
  | zero => intro x hx hd; omega
  | succ d ih =>
    intro x hx hd
    rcases timerFires_progress t x hx with ⟨v, e⟩ | ⟨y, hxy, hyt, e⟩
    · refine ⟨1, by omega, ?_, ?_⟩
      · intro k hk
        have : k = 0 := by omega
        subst this
        rfl
      · intro k hk
        obtain ⟨j, rfl⟩ := Nat.exists_eq_add_of_le hk
        rw [Nat.add_comm, runTimers_succ_front, e, runTimers_idle _ _ (ended_scheduled _ _)]
        exact ⟨rfl, rfl⟩
    · obtain ⟨n, hn, hbefore, hafter⟩ := ih y hyt (by omega)
      refine ⟨n + 1, by omega, ?_, ?_⟩
      · intro k hk
        cases k with
        | zero => rfl
        | succ j =>
          rw [runTimers_succ_front, e]
          exact hbefore j (by omega)
      · intro k hk
        cases k with
        | zero => omega
        | succ j =>
          rw [runTimers_succ_front, e]
          exact hafter j (by omega)
/-! ## Counters: termination, frames and parsing -/

/-- C1: for every counter text whose parsed target is a positive integer `t`,
the animation that `startCounters` starts for it ends: there is a number `n` of
timer callbacks, below `t`, such that a timer is outstanding after each of the
first `n` callbacks and none is outstanding from the `n`-th on, and from then on
the text is the formatted target followed by "+" and no longer changes. -/
theorem counter_animation_terminates (text : String) (a : Option Animation) (t : Nat)
    (htarget : parseTarget text = .fin t) (hpos : 0 < t) :
    ∃ n, n < t ∧
      (∀ k, k < n → (runTimers k (startCounter ⟨text, a⟩)).scheduled = true) ∧
      (∀ k, n ≤ k →
        (runTimers k (startCounter ⟨text, a⟩)).scheduled = false ∧
        (runTimers k (startCounter ⟨text, a⟩)).textContent
          = toLocaleString (.fin t) ++ "+") := by
  have hne : parseTarget text ≠ .fin 0 := by
    rw [htarget]
    intro h
    have := Magnitude.fin.inj h
    omega
  have hstart : startCounter ⟨text, a⟩ = timerFires (running (.fin t) (.fin 0)) := by
    rw [startCounter_started text a hne, timerFires_running, htarget]
  rw [hstart]
  rcases timerFires_progress t 0 hpos with ⟨v, e⟩ | ⟨y, hy, hyt, e⟩
  · rw [e]
    refine ⟨0, hpos, fun k hk => absurd hk (Nat.not_lt_zero k), ?_⟩
    intro k _
    rw [runTimers_idle _ _ (ended_scheduled _ _)]
    exact ⟨rfl, rfl⟩
  · rw [e]
    obtain ⟨n, hn, h1, h2⟩ := running_terminates t (t - y) y hyt (le_refl _)
    exact ⟨n, by omega, h1, h2⟩

/-- Witness for C1: the counter text "500", whose animation ends at "500+", and
the text "9007199254740993", whose target is the Number 9007199254740992. -/
theorem counter_animation_terminates_witness :
    (parseTarget "500" = .fin 500 ∧ 0 < 500 ∧
      toLocaleString (.fin 500) ++ "+" = "500+" ∧
      ∃ n, n < 500 ∧
        (∀ k, k < n → (runTimers k (startCounter ⟨"500", none⟩)).scheduled = true) ∧
        (∀ k, n ≤ k →
          (runTimers k (startCounter ⟨"500", none⟩)).scheduled = false ∧
          (runTimers k (startCounter ⟨"500", none⟩)).textContent
            = toLocaleString (.fin 500) ++ "+")) ∧
    (parseTarget "9007199254740993" = .fin 9007199254740992 ∧
      toLocaleString (.fin 9007199254740992) ++ "+" = "9,007,199,254,740,992+" ∧
      ∃ n, n < 9007199254740992 ∧
        (∀ k, k < n →
          (runTimers k (startCounter ⟨"9007199254740993", none⟩)).scheduled = true) ∧
        (∀ k, n ≤ k →
          (runTimers k (startCounter ⟨"9007199254740993", none⟩)).scheduled = false ∧
          (runTimers k (startCounter ⟨"9007199254740993", none⟩)).textContent
            = toLocaleString (.fin 9007199254740992) ++ "+")) :=
  ⟨⟨by decide, by decide, by decide,
      counter_animation_terminates "500" none 500 (by decide) (by decide)⟩,
   ⟨by decide, by decide,
      counter_animation_terminates "9007199254740993" none 9007199254740992
        (by decide) (by decide)⟩⟩

/-- C10 (refutation): there is no counter text with a non-zero target, no
number of timer callbacks and no Number above the target such that the
animation still runs and the counter shows that Number. -/
theorem no_frame_exceeds_target :
    ¬ ∃ (text : String) (k : Nat) (v : Magnitude), parseTarget text ≠ .fin 0 ∧
        (runTimers k (startCounter ⟨text, none⟩)).scheduled = true ∧
        (parseTarget text).lt v = true ∧
        (runTimers k (startCounter ⟨text, none⟩)).textContent = toLocaleString v := by
  rintro ⟨text, k, v, h, hs, hv, ht⟩
  obtain ⟨w, ⟨e, hw⟩ | e⟩ := run_started text none h k
  · rw [e] at ht
    have : w = v := toLocaleString_injective _ _ ht
    subst this
    exact lt_asymm_magnitude _ _ hw hv
  · rw [e, ended_scheduled] at hs
    exact absurd hs (by decide)

/-- C10 (as amended): for some positive target (125, increment 2) the
accumulator of the animation exceeds the target at the terminal tick (126), but
no frame shows such a value: for every counter text with a non-zero target,
while the animation runs the counter shows the accumulator, which is below the
target, and once it has ended the counter shows the formatted target followed
by "+". -/
theorem overshoot_is_never_shown :
    runTimers 62 (startCounter ⟨"125", none⟩)
      = ⟨"125+", some ⟨.fin 125, .fin 2, .fin 126, false⟩⟩ ∧
    ∀ (text : String) (k : Nat), parseTarget text ≠ .fin 0 →
      ((runTimers k (startCounter ⟨text, none⟩)).scheduled = true →
        ∃ (v : Magnitude) (a : Animation), v.lt (parseTarget text) = true ∧
          (runTimers k (startCounter ⟨text, none⟩)).textContent = toLocaleString v ∧
          (runTimers k (startCounter ⟨text, none⟩)).animation = some a ∧
          a.value = v ∧ a.target = parseTarget text) ∧
      ((runTimers k (startCounter ⟨text, none⟩)).scheduled = false →
        (runTimers k (startCounter ⟨text, none⟩)).textContent
          = toLocaleString (parseTarget text) ++ "+") := by
  constructor
  · set_option maxRecDepth 100000 in decide
  · intro text k h
    obtain ⟨w, ⟨e, hw⟩ | e⟩ := run_started text none h k
    · rw [e, running_scheduled]
      exact ⟨fun _ => ⟨w, _, hw, rfl, rfl, rfl, rfl⟩, fun hs => absurd hs (by decide)⟩
    · rw [e, ended_scheduled]
      exact ⟨fun hs => absurd hs (by decide), fun _ => rfl⟩

/-- Witness for C10: the target 125 shows "125+" once its animation has ended,
after 62 timer callbacks. -/
theorem overshoot_is_never_shown_witness :
    parseTarget "125" ≠ .fin 0 ∧
    ((runTimers 62 (startCounter ⟨"125", none⟩)).scheduled = false →
      (runTimers 62 (startCounter ⟨"125", none⟩)).textContent
        = toLocaleString (parseTarget "125") ++ "+") :=
  ⟨by decide, (overshoot_is_never_shown.2 "125" 62 (by decide)).2⟩

/-- C5 (counterexample): on the text "1+2" the script reads the target 12,
where the first run of digits after removing the commas and a trailing "+" is
"1"; on "9007199254740993" it reads the Number 9007199254740992, not the
integer value of the run; the two readings agree on "10,000+". -/
theorem parse_differs_on_inner_plus :
    parseTarget "1+2" = .fin 12 ∧ specTarget "1+2" = 1 ∧
    parseTarget "1+2" ≠ .fin (specTarget "1+2") ∧
    parseTarget "9007199254740993" = .fin 9007199254740992 ∧
    specTarget "9007199254740993" = 9007199254740993 ∧
    parseTarget "9007199254740993" ≠ .fin (specTarget "9007199254740993") ∧
    parseTarget "10,000+" = .fin 10000 ∧ specTarget "10,000+" = 10000 := by
  decide

/-- C5 (as amended): the target of a counter text is the decimal value of the
first run of digits of the text once every "," and every "+" is removed
(wherever they stand), when that value is below `2^53`, and the Number nearest
to that value when it has up to 20 digits; a text without a digit has target
0; and a counter whose target is 0 is left as it is by `startCounters`: same
text, no animation started. -/
theorem parseTarget_contract (text : String) :
    (∀ pre run post : List Char, stripped text = pre ++ run ++ post →
      (∀ c ∈ pre, isDigit c = false) → run ≠ [] → (∀ c ∈ run, isDigit c = true) →
      (∀ c, post.head? = some c → isDigit c = false) →
      (digitsValue run < 2 ^ 53 → parseTarget text = .fin (digitsValue run)) ∧
      (digitsValue run < 10 ^ 20 → parseTarget text = toNumber (digitsValue run))) ∧
    ((∀ c ∈ text.data, isDigit c = false) → parseTarget text = .fin 0) ∧
    (parseTarget text = .fin 0 →
      (∀ a : Option Animation, startCounter ⟨text, a⟩ = ⟨text, a⟩) ∧
      ∀ (s : Stats) (top : Option Int) (h : Int) (i : Nat) (a : Option Animation),
        s.counters[i]? = some ⟨text, a⟩ →
        (startCounters top h s).counters[i]? = some ⟨text, a⟩) := by
  refine ⟨?_, parseTarget_no_digit text, ?_⟩
  · intro pre run post hs hpre hne hrun hpost
    have key := parseTarget_decomp text pre run post hs hpre hne hrun hpost
    exact ⟨fun hsmall => by rw [key, toNumber_small _ hsmall], fun _ => key⟩
  · intro h0
    have hc : ∀ a : Option Animation, startCounter ⟨text, a⟩ = ⟨text, a⟩ := by
      intro a
      simp [startCounter, h0]
    refine ⟨hc, ?_⟩
    intro s top h i a hi
    unfold startCounters
    split
    · exact hi
    · split
      · exact hi
      · simp only [List.getElem?_map, hi, Option.map_some', hc a]

/-- Witness for C5: "10,000+" is read as 10000, and a counter with the text
"n/a" is left alone. -/
theorem parseTarget_contract_witness :
    parseTarget "10,000+" = .fin (digitsValue ['1', '0', '0', '0', '0']) ∧
    digitsValue ['1', '0', '0', '0', '0'] = 10000 ∧
    startCounter ⟨"n/a", none⟩ = ⟨"n/a", none⟩ :=
  ⟨((parseTarget_contract "10,000+").1 [] ['1', '0', '0', '0', '0'] [] (by decide) (by decide)
      (by decide) (by decide) (by decide)).1 (by decide),
   by decide,
   ((parseTarget_contract "n/a").2.2 (by decide)).1 none⟩
end PageEnhancer
